import Mathlib

/-!
Shallow embedding of the puzzle engine of the PolkiProd repository
(src/components/Game.tsx, src/App.tsx, src/constants.tsx, src/types).

Randomness (`Math.random`-driven type picks and the two comparator
shuffles) is modelled by passing the random choices in explicitly: the
list of picked types, and the already-shuffled pool / position lists,
constrained by permutation hypotheses in the theorems.
-/

namespace PolkiProd

/-- The enumerated item kinds of `src/types` (`ItemType`). -/
inductive ItemType where
  | APPLE | BANANA | CHERRY | MILK | COOKIE | SODA
  | PIZZA | BURGER | ICECREAM | GIFT | CANDY | DIAMOND
deriving DecidableEq, Repr

/-- `GameItem` of `src/types`.  The string id `item-<n>` is represented by
the numeric index `n` (the constant text adds nothing). -/
structure GameItem where
  id : Nat
  type : ItemType
  layer : Nat
  shelfIndex : Nat
  slotIndex : Nat
  isMatched : Bool
deriving DecidableEq, Repr

/-- `LevelConfig` of `src/types` (time-limited variant).  The thresholds
are numbers only ever compared against `timeLeft`, embedded as `Int`. -/
structure LevelConfig where
  levelNumber : Nat
  timeLimitSeconds : Int
  threeStarThreshold : Int
  twoStarThreshold : Int
  itemTypes : List ItemType
  shelfCount : Nat
  slotsPerShelf : Nat
  layersPerSlot : Nat
  totalSets : Nat
deriving DecidableEq, Repr

/-- `MAX_TRAY_SIZE` of `src/constants.tsx`. -/
def MAX_TRAY_SIZE : Nat := 7

/-- A `(shelf, slot, layer)` position as built in `generateLevel`. -/
structure Pos where
  shelf : Nat
  slot : Nat
  layer : Nat
deriving DecidableEq, Repr

/-- The `positions` array of `generateLevel` (Game.tsx lines 59-66):
every position of the grid, enumerated shelf-major. -/
def allPositions (cfg : LevelConfig) : List Pos :=
  (List.range cfg.shelfCount).flatMap fun s =>
    (List.range cfg.slotsPerShelf).flatMap fun sl =>
      (List.range cfg.layersPerSlot).map fun l => ⟨s, sl, l⟩

/-- The `typePool` built in `generateLevel` (lines 49-53): three copies of
the randomly picked type of each set, in pick order. -/
def typePool (picks : List ItemType) : List ItemType :=
  picks.flatMap fun t => [t, t, t]

/-- The `usedPositions.forEach` loop of `generateLevel` (lines 71-84):
walk the used positions, pairing each with the next pool entry while the
pool lasts, producing the `newItems` array. -/
def placeItems (pool : List ItemType) : List Pos → Nat → Nat → List GameItem
  | [], _, _ => []
  | p :: rest, index, poolIndex =>
    if h : poolIndex < pool.length then
      { id := index, type := pool.get ⟨poolIndex, h⟩,
        layer := p.layer, shelfIndex := p.shelf, slotIndex := p.slot,
        isMatched := false } :: placeItems pool rest (index + 1) (poolIndex + 1)
    else
      placeItems pool rest (index + 1) poolIndex

/-- `generateLevel` (Game.tsx lines 44-91), with the shuffles made
explicit: `shuffledPool` is the shuffled `typePool`, `shuffledPositions`
the shuffled `positions` array; the code then keeps the first
`typePool.length` positions and assigns pool entries in order. -/
def generateLevel (shuffledPool : List ItemType) (shuffledPositions : List Pos) :
    List GameItem :=
  placeItems shuffledPool (shuffledPositions.take shuffledPool.length) 0 0

/-- `isBlocked` (Game.tsx lines 93-102). -/
def isBlocked (targetItem : GameItem) (allItems : List GameItem) : Bool :=
  allItems.any fun item =>
    !item.isMatched &&
    item.id != targetItem.id &&
    item.shelfIndex == targetItem.shelfIndex &&
    item.slotIndex == targetItem.slotIndex &&
    decide (targetItem.layer < item.layer)

/-- The React component state of `Game` that the engine logic touches. -/
structure Session where
  items : List GameItem
  tray : List GameItem
  timeLeft : Int
  isProcessingMatch : Bool
  matchedType : Option ItemType
  isInitialized : Bool
deriving DecidableEq, Repr

/-- `handleItemClick` (Game.tsx lines 104-114): three early-return
guards, then move the clicked item from the shelf to the tray end. -/
def handleItemClick (s : Session) (clickedItem : GameItem) : Session :=
  if s.isProcessingMatch then s
  else if MAX_TRAY_SIZE ≤ s.tray.length then s
  else if isBlocked clickedItem s.items then s
  else
    { s with
      items := s.items.filter fun i => i.id != clickedItem.id,
      tray := s.tray ++ [clickedItem] }

/-- `typeCounts[t]` of the match-check effect (lines 121-124). -/
def typeCount (tray : List GameItem) (t : ItemType) : Nat :=
  tray.countP fun i => i.type == t

/-- `Object.keys(typeCounts)`: the types of the tray in first-occurrence
order (string keys of a JS object preserve insertion order). -/
def keysInOrder : List ItemType → List ItemType
  | [] => []
  | t :: ts => t :: (keysInOrder ts).filter fun u => u != t

/-- `foundMatchedType` (line 126): the first key, in first-occurrence
order, whose tray count reaches 3. -/
def foundMatchedType (tray : List GameItem) : Option ItemType :=
  (keysInOrder (tray.map fun i => i.type)).find? fun t => 3 ≤ typeCount tray t

/-- The `setTray` loop of the match-resolution timeout (lines 134-145):
drop items of the matched type while fewer than 3 have been dropped. -/
def removeMatchedAux (t : ItemType) : List GameItem → Nat → List GameItem
  | [], _ => []
  | item :: rest, removedCount =>
    if item.type == t && removedCount < 3 then
      removeMatchedAux t rest (removedCount + 1)
    else
      item :: removeMatchedAux t rest removedCount

/-- The tray after the match-resolution timeout fires for type `t`. -/
def resolveMatch (t : ItemType) (tray : List GameItem) : List GameItem :=
  removeMatchedAux t tray 0

/-- The loss branch of the match-check effect (lines 117-118, 149-153):
`onGameOver(false, 0)` fires exactly when the tray is non-empty, no type
count reaches 3, and the tray is at capacity. -/
def matchEffectFiresLoss (s : Session) : Bool :=
  !s.tray.isEmpty && (foundMatchedType s.tray).isNone &&
    decide (MAX_TRAY_SIZE ≤ s.tray.length)

/-- The win-condition effect's firing condition (lines 157-168):
initialized, shelf empty, tray empty. -/
def winFires (s : Session) : Bool :=
  s.isInitialized && s.items.length == 0 && s.tray.length == 0

/-- The star computation of the win branch (lines 163-165). -/
def starsForWin (cfg : LevelConfig) (timeLeft : Int) : Nat :=
  if cfg.threeStarThreshold ≤ timeLeft then 3
  else if cfg.twoStarThreshold ≤ timeLeft then 2
  else 1

/-! ### Concrete states used by counterexamples and witnesses -/

/-- Builds an active item with the given id, type, layer and slot on
shelf 0. -/
def mkItem (n : Nat) (t : ItemType) (l sl : Nat) : GameItem :=
  { id := n, type := t, layer := l, shelfIndex := 0, slotIndex := sl,
    isMatched := false }

/-- A lone unblocked shelf item. -/
def c5Item : GameItem := mkItem 0 ItemType.APPLE 0 0

/-- A session with the time budget exhausted but nothing else in the way
of a click. -/
def c5State : Session :=
  { items := [c5Item], tray := [], timeLeft := 0, isProcessingMatch := false,
    matchedType := none, isInitialized := true }

/-- A session in the middle of match resolution. -/
def c5BusyState : Session :=
  { items := [c5Item], tray := [], timeLeft := 30, isProcessingMatch := true,
    matchedType := none, isInitialized := true }

/-- A session whose tray holds 7 items of mutually distinct types, with
positive remaining time and a non-empty shelf. -/
def c6State : Session :=
  { items := [mkItem 99 ItemType.DIAMOND 0 0],
    tray := [mkItem 0 ItemType.APPLE 0 0, mkItem 1 ItemType.BANANA 0 1,
      mkItem 2 ItemType.CHERRY 0 2, mkItem 3 ItemType.MILK 0 3,
      mkItem 4 ItemType.COOKIE 0 4, mkItem 5 ItemType.SODA 0 5,
      mkItem 6 ItemType.PIZZA 0 6],
    timeLeft := 30, isProcessingMatch := false, matchedType := none,
    isInitialized := true }

/-- The pre-initialization grace state right after mount: empty shelf list,
empty tray, `isInitialized` still false. -/
def c1State : Session :=
  { items := [], tray := [], timeLeft := 60, isProcessingMatch := false,
    matchedType := none, isInitialized := false }

/-- An initialized session used to instantiate the amended C1 claim. -/
def c1InitState : Session :=
  { items := [], tray := [], timeLeft := 45, isProcessingMatch := false,
    matchedType := none, isInitialized := true }

/-- A configuration whose grid capacity (1 shelf, 1 slot, 2 layers = 2) is
smaller than `totalSets * 3 = 3`. -/
def c7Config : LevelConfig :=
  { levelNumber := 1, timeLimitSeconds := 60, threeStarThreshold := 36,
    twoStarThreshold := 18, itemTypes := [ItemType.APPLE], shelfCount := 1,
    slotsPerShelf := 1, layersPerSlot := 2, totalSets := 1 }

/-- A well-formed small configuration: 1 shelf, 1 slot, 3 layers,
1 triplet of apples. -/
def cfgW : LevelConfig :=
  { levelNumber := 1, timeLimitSeconds := 60, threeStarThreshold := 36,
    twoStarThreshold := 18, itemTypes := [ItemType.APPLE], shelfCount := 1,
    slotsPerShelf := 1, layersPerSlot := 3, totalSets := 1 }

/-- A tray with three apples (at positions 0, 2, 3) and one banana. -/
def c4Tray : List GameItem :=
  [mkItem 0 ItemType.APPLE 0 0, mkItem 1 ItemType.BANANA 0 1,
   mkItem 2 ItemType.APPLE 0 2, mkItem 3 ItemType.APPLE 0 3]

/-- A two-item stack in one slot: item 1 in front of item 0. -/
def c3Stack : List GameItem :=
  [mkItem 0 ItemType.APPLE 0 0, mkItem 1 ItemType.BANANA 1 0]

/-- A session set up for an accepted click on `c5Item`. -/
def c10State : Session :=
  { items := [c5Item], tray := [], timeLeft := 60, isProcessingMatch := false,
    matchedType := none, isInitialized := true }

/-! ### Generator lemmas -/

theorem typePool_length (picks : List ItemType) :
    (typePool picks).length = 3 * picks.length := by
  induction picks with
  | nil => simp [typePool]
  | cons t ts ih =>
    simp only [typePool, List.flatMap_cons, List.length_append, List.length_cons,
      List.length_nil] at ih ⊢
    omega

theorem length_allPositions (cfg : LevelConfig) :
    (allPositions cfg).length =
      cfg.shelfCount * cfg.slotsPerShelf * cfg.layersPerSlot := by
  simp only [allPositions, List.length_flatMap, Function.comp_def, List.length_map,
    List.length_range, List.map_const', List.sum_replicate, smul_eq_mul]
  ring

theorem placeItems_map_type (pool : List ItemType) (used : List Pos) :
    ∀ index poolIndex, poolIndex + used.length ≤ pool.length →
      (placeItems pool used index poolIndex).map (fun i => i.type) =
        (pool.drop poolIndex).take used.length := by
  induction used with
  | nil => intro index poolIndex _; simp [placeItems]
  | cons p rest ih =>
    intro index poolIndex h
    have hlt : poolIndex < pool.length := by
      simp only [List.length_cons] at h; omega
    rw [placeItems, dif_pos hlt]
    simp only [List.map_cons, List.length_cons]
    rw [ih (index + 1) (poolIndex + 1)
      (by simp only [List.length_cons] at h; omega)]
    rw [List.drop_eq_getElem_cons hlt, List.take_succ_cons, List.get_eq_getElem]

theorem placeItems_length (pool : List ItemType) (used : List Pos)
    (index poolIndex : Nat) (h : poolIndex + used.length ≤ pool.length) :
    (placeItems pool used index poolIndex).length = used.length := by
  have hmap := congrArg List.length (placeItems_map_type pool used index poolIndex h)
  simp only [List.length_map, List.length_take, List.length_drop] at hmap
  omega

theorem placeItems_map_pos (pool : List ItemType) (used : List Pos) :
    ∀ index poolIndex, poolIndex + used.length ≤ pool.length →
      (placeItems pool used index poolIndex).map
          (fun i => (i.shelfIndex, i.slotIndex, i.layer)) =
        used.map fun p => (p.shelf, p.slot, p.layer) := by
  induction used with
  | nil => intro _ _ _; simp [placeItems]
  | cons p rest ih =>
    intro index poolIndex h
    have hlt : poolIndex < pool.length := by
      simp only [List.length_cons] at h; omega
    rw [placeItems, dif_pos hlt]
    simp only [List.map_cons]
    rw [ih (index + 1) (poolIndex + 1)
      (by simp only [List.length_cons] at h; omega)]

theorem nodup_allPositions (cfg : LevelConfig) : (allPositions cfg).Nodup := by
  unfold allPositions
  rw [List.nodup_flatMap]
  refine ⟨fun s _ => ?_, ?_⟩
  · rw [List.nodup_flatMap]
    refine ⟨fun sl _ => ?_, ?_⟩
    · refine List.Nodup.map ?_ (List.nodup_range _)
      intro a b hab
      exact congrArg Pos.layer hab
    · refine List.Pairwise.imp ?_ (List.nodup_range _)
      intro a b hab x hxa hxb
      simp only [List.mem_map, List.mem_range] at hxa hxb
      obtain ⟨la, _, rfl⟩ := hxa
      obtain ⟨lb, _, hx⟩ := hxb
      exact hab (congrArg Pos.slot hx).symm
  · refine List.Pairwise.imp ?_ (List.nodup_range _)
    intro a b hab x hxa hxb
    simp only [List.mem_flatMap, List.mem_map, List.mem_range] at hxa hxb
    obtain ⟨sla, _, la, _, rfl⟩ := hxa
    obtain ⟨slb, _, lb, _, hx⟩ := hxb
    exact hab (congrArg Pos.shelf hx).symm

/-- Claim C2: for every valid configuration (grid capacity at least
`totalSets * 3`), the generator produces exactly `totalSets * 3` items,
and the multiset of produced items partitions into exactly `totalSets`
groups of 3 items sharing a type drawn from the configured type subset. -/
theorem c2_generator_sets (cfg : LevelConfig) (picks pool : List ItemType)
    (posns : List Pos)
    (hp : picks.length = cfg.totalSets)
    (ht : ∀ t ∈ picks, t ∈ cfg.itemTypes)
    (hpool : pool.Perm (typePool picks))
    (hpos : posns.Perm (allPositions cfg))
    (hcap : cfg.totalSets * 3 ≤ cfg.shelfCount * cfg.slotsPerShelf * cfg.layersPerSlot) :
    (generateLevel pool posns).length = cfg.totalSets * 3 ∧
    ∃ groups : List ItemType, groups.length = cfg.totalSets ∧
      (∀ t ∈ groups, t ∈ cfg.itemTypes) ∧
      ((generateLevel pool posns).map fun i => i.type).Perm
        (groups.flatMap fun t => [t, t, t]) := by
  have hpoolLen : pool.length = 3 * cfg.totalSets := by
    rw [hpool.length_eq, typePool_length, hp]
  have hposLen : posns.length =
      cfg.shelfCount * cfg.slotsPerShelf * cfg.layersPerSlot := by
    rw [hpos.length_eq, length_allPositions]
  have hused : (posns.take pool.length).length = pool.length := by
    rw [List.length_take]; omega
  have hle : 0 + (posns.take pool.length).length ≤ pool.length := by omega
  constructor
  · have hlen := placeItems_length pool (posns.take pool.length) 0 0 hle
    rw [generateLevel] at *
    rw [hlen, hused, hpoolLen]; omega
  · refine ⟨picks, hp, ht, ?_⟩
    have hmap := placeItems_map_type pool (posns.take pool.length) 0 0 hle
    rw [generateLevel, hmap, List.drop_zero, hused, List.take_length]
    exact hpool

/-- The position triple of an item determines a `Pos` injectively. -/
theorem pos_triple_injective :
    Function.Injective fun p : Pos => (p.shelf, p.slot, p.layer) := by
  intro a b hab
  cases a; cases b
  simpa using hab

/-- Claim C8: no two generated items share a `(shelfIndex, slotIndex,
layer)` triple, and the invariant is preserved by clicks: `handleItemClick`
only ever removes shelf items (the new shelf list is a sublist of the old),
so distinctness of position triples is preserved. -/
theorem c8_position_invariant (cfg : LevelConfig) (pool : List ItemType)
    (posns : List Pos) (hpos : posns.Perm (allPositions cfg)) :
    ((generateLevel pool posns).map fun i => (i.shelfIndex, i.slotIndex, i.layer)).Nodup ∧
    (∀ (s : Session) (clickedItem : GameItem),
      ((handleItemClick s clickedItem).items).Sublist s.items) ∧
    (∀ (s : Session) (clickedItem : GameItem),
      (s.items.map fun i => (i.shelfIndex, i.slotIndex, i.layer)).Nodup →
      ((handleItemClick s clickedItem).items.map
        fun i => (i.shelfIndex, i.slotIndex, i.layer)).Nodup) := by
  have hsub : ∀ (s : Session) (clickedItem : GameItem),
      ((handleItemClick s clickedItem).items).Sublist s.items := by
    intro s clickedItem
    unfold handleItemClick
    split_ifs <;> first | exact List.Sublist.refl _ | exact List.filter_sublist _
  refine ⟨?_, hsub, fun s clickedItem hnd => ?_⟩
  · have hle : 0 + (posns.take pool.length).length ≤ pool.length := by
      rw [List.length_take]; omega
    have hmap := placeItems_map_pos pool (posns.take pool.length) 0 0 hle
    rw [generateLevel, hmap]
    have hndPos : (posns.take pool.length).Nodup :=
      (List.take_sublist _ _).nodup (hpos.symm.nodup (nodup_allPositions cfg))
    exact List.Nodup.map pos_triple_injective hndPos
  · exact ((hsub s clickedItem).map _).nodup hnd

/-- Claim C3: `isBlocked x S` is true iff `S` contains a non-removed item
other than `x` (different id) in the same `(shelfIndex, slotIndex)` pair
with a strictly greater layer; consequently an item whose layer is maximal
among the active items of its `(shelf, slot)` group is never blocked, and
(when ids identify items) every item strictly below some active item of
its group is blocked. -/
theorem c3_isBlocked_characterization (x : GameItem) (S : List GameItem) :
    (isBlocked x S = true ↔ ∃ y ∈ S, y.isMatched = false ∧ y.id ≠ x.id ∧
      y.shelfIndex = x.shelfIndex ∧ y.slotIndex = x.slotIndex ∧
      x.layer < y.layer) ∧
    ((∀ y ∈ S, y.isMatched = false → y.shelfIndex = x.shelfIndex →
        y.slotIndex = x.slotIndex → y.layer ≤ x.layer) →
      isBlocked x S = false) ∧
    ((∀ a ∈ S, ∀ b ∈ S, a.id = b.id → a = b) → x ∈ S →
      ∀ y ∈ S, y.isMatched = false → y.shelfIndex = x.shelfIndex →
        y.slotIndex = x.slotIndex → x.layer < y.layer →
      isBlocked x S = true) := by
  have hiff : isBlocked x S = true ↔ ∃ y ∈ S, y.isMatched = false ∧
      y.id ≠ x.id ∧ y.shelfIndex = x.shelfIndex ∧ y.slotIndex = x.slotIndex ∧
      x.layer < y.layer := by
    simp [isBlocked, List.any_eq_true, Bool.and_eq_true, Bool.not_eq_true',
      bne_iff_ne, beq_iff_eq, decide_eq_true_eq, and_assoc]
  refine ⟨hiff, fun hmax => ?_, fun hinj hx y hy hym hysh hysl hlt => ?_⟩
  · by_contra hne
    rw [Bool.not_eq_false] at hne
    obtain ⟨y, hy, hym, _, hysh, hysl, hlt⟩ := hiff.mp hne
    exact absurd (hmax y hy hym hysh hysl) (not_le.mpr hlt)
  · refine hiff.mpr ⟨y, hy, hym, fun hid => ?_, hysh, hysl, hlt⟩
    have hyx : y = x := hinj y hy x hx hid
    rw [hyx] at hlt
    exact lt_irrefl _ hlt

/-! ### Tray matcher lemmas -/

theorem mem_keysInOrder (u : ItemType) :
    ∀ l : List ItemType, u ∈ keysInOrder l ↔ u ∈ l := by
  intro l
  induction l with
  | nil => simp [keysInOrder]
  | cons t ts ih =>
    simp only [keysInOrder, List.mem_cons, List.mem_filter, bne_iff_ne, ne_eq]
    constructor
    · rintro (rfl | ⟨h, _⟩)
      · exact .inl rfl
      · exact .inr (ih.mp h)
    · rintro (rfl | h)
      · exact .inl rfl
      · by_cases hu : u = t
        · exact .inl hu
        · exact .inr ⟨ih.mpr h, by simpa using hu⟩

theorem countP_split {α : Type} (p : α → Bool) :
    ∀ (n : Nat) (l : List α), n ≤ l.countP p →
      ∃ pre post, l = pre ++ post ∧ pre.countP p = n := by
  intro n l
  induction l generalizing n with
  | nil =>
    intro h
    simp only [List.countP_nil, Nat.le_zero] at h
    exact ⟨[], [], rfl, by simp [h]⟩
  | cons x xs ih =>
    intro h
    match n with
    | 0 => exact ⟨[], x :: xs, rfl, by simp⟩
    | n + 1 =>
      by_cases hx : p x = true
      · have hle : n ≤ xs.countP p := by
          rw [List.countP_cons_of_pos _ _ hx] at h; omega
        obtain ⟨pre, post, heq, hpre⟩ := ih n hle
        exact ⟨x :: pre, post, by rw [heq, List.cons_append],
          by rw [List.countP_cons_of_pos _ _ hx, hpre]⟩
      · have hle : n + 1 ≤ xs.countP p := by
          rw [List.countP_cons_of_neg _ _ hx] at h; omega
        obtain ⟨pre, post, heq, hpre⟩ := ih (n + 1) hle
        exact ⟨x :: pre, post, by rw [heq, List.cons_append],
          by rw [List.countP_cons_of_neg _ _ hx, hpre]⟩

theorem removeMatchedAux_of_le (t : ItemType) :
    ∀ (l : List GameItem) (c : Nat), 3 ≤ c → removeMatchedAux t l c = l := by
  intro l
  induction l with
  | nil => intro c _; rfl
  | cons x xs ih =>
    intro c hc
    have hcond : ¬((x.type == t && decide (c < 3)) = true) := by
      simp only [Bool.and_eq_true, decide_eq_true_eq, beq_iff_eq, not_and]
      intro _; omega
    rw [removeMatchedAux, if_neg hcond, ih c hc]

theorem removeMatchedAux_append (t : ItemType) :
    ∀ (pre post : List GameItem) (c : Nat),
      c + pre.countP (fun i => i.type == t) = 3 →
      removeMatchedAux t (pre ++ post) c =
        pre.filter (fun i => !(i.type == t)) ++ post := by
  intro pre
  induction pre with
  | nil =>
    intro post c hc
    simp only [List.countP_nil, Nat.add_zero] at hc
    simp only [List.nil_append, List.filter_nil]
    exact removeMatchedAux_of_le t post c (by omega)
  | cons x rest ih =>
    intro post c hc
    by_cases hx : (x.type == t) = true
    · have hcnt : c + rest.countP (fun i => i.type == t) + 1 = 3 := by
        rw [List.countP_cons_of_pos (fun i => i.type == t) rest hx] at hc; omega
      have hclt : c < 3 := by omega
      rw [List.cons_append, removeMatchedAux,
        if_pos (by simp only [Bool.and_eq_true, decide_eq_true_eq]; exact ⟨hx, hclt⟩)]
      rw [ih post (c + 1) (by omega)]
      rw [List.filter_cons_of_neg (by simp [hx])]
    · have hc' : c + rest.countP (fun i => i.type == t) = 3 := by
        rw [List.countP_cons_of_neg (fun i => i.type == t) rest hx] at hc; omega
      rw [List.cons_append, removeMatchedAux,
        if_neg (by simp only [Bool.and_eq_true, decide_eq_true_eq, not_and]; intro hcontra; exact absurd hcontra hx)]
      rw [ih post c hc', List.filter_cons_of_pos (by simp [hx]), List.cons_append]

theorem removeMatchedAux_sublist (t : ItemType) :
    ∀ (l : List GameItem) (c : Nat), (removeMatchedAux t l c).Sublist l := by
  intro l
  induction l with
  | nil => intro c; exact List.Sublist.refl _
  | cons x xs ih =>
    intro c
    rw [removeMatchedAux]
    split
    · exact (ih _).trans (List.sublist_cons_self x xs)
    · exact (ih c).cons₂ x

/-- Claim C4: whenever some tray type has count at least 3, the match-check
effect finds a matched type `t` (count at least 3), and the resolution
removes exactly the first 3 items of type `t` in tray order: the tray
splits as `pre ++ post` with `pre` holding exactly 3 items of type `t`,
the resolved tray is `pre` without its `t` items followed by `post`
untouched, the count of `t` drops by exactly 3 (so a type with 4 or more
copies loses exactly 3), and the resolved tray is a sublist of the
original (all remaining items keep their relative order). -/
theorem c4_match_resolution (tray : List GameItem)
    (h : ∃ u, 3 ≤ typeCount tray u) :
    ∃ t, foundMatchedType tray = some t ∧ 3 ≤ typeCount tray t ∧
      (∃ pre post, tray = pre ++ post ∧
        pre.countP (fun i => i.type == t) = 3 ∧
        resolveMatch t tray = pre.filter (fun i => !(i.type == t)) ++ post) ∧
      typeCount (resolveMatch t tray) t = typeCount tray t - 3 ∧
      (resolveMatch t tray).Sublist tray := by
  obtain ⟨u, hu⟩ := h
  have humem : u ∈ tray.map fun i => i.type := by
    have hpos : 0 < tray.countP fun i => i.type == u := by
      have : (0:Nat) < 3 := by omega
      exact lt_of_lt_of_le this hu
    rw [List.countP_pos_iff] at hpos
    obtain ⟨a, ha, hat⟩ := hpos
    exact List.mem_map.mpr ⟨a, ha, by simpa using hat⟩
  have hsome : (foundMatchedType tray).isSome = true := by
    rw [foundMatchedType, List.find?_isSome]
    exact ⟨u, (mem_keysInOrder u _).mpr humem, by simpa [typeCount] using hu⟩
  obtain ⟨t, ht⟩ := Option.isSome_iff_exists.mp hsome
  have htc : 3 ≤ typeCount tray t := by
    have := List.find?_some ht
    simpa using this
  obtain ⟨pre, post, rfl, hpre⟩ :=
    countP_split (fun i => i.type == t) 3 tray (by simpa [typeCount] using htc)
  have hres : resolveMatch t (pre ++ post) =
      pre.filter (fun i => !(i.type == t)) ++ post :=
    removeMatchedAux_append t pre post 0 (by omega)
  have hzero : (pre.filter fun i => !(i.type == t)).countP
      (fun i => i.type == t) = 0 := by
    rw [List.countP_eq_zero]
    intro a ha
    rw [List.mem_filter] at ha
    simpa using ha.2
  refine ⟨t, ht, htc, ⟨pre, post, rfl, hpre, hres⟩, ?_, ?_⟩
  · rw [hres]
    simp only [typeCount, List.countP_append, hzero, hpre]
    omega
  · exact removeMatchedAux_sublist t (pre ++ post) 0

/-! ### Click lemmas -/

theorem handleItemClick_noop (s : Session) (clickedItem : GameItem)
    (h : s.isProcessingMatch = true ∨ MAX_TRAY_SIZE ≤ s.tray.length ∨
      isBlocked clickedItem s.items = true) :
    handleItemClick s clickedItem = s := by
  unfold handleItemClick
  split_ifs with h1 h2 h3
  · rfl
  · rfl
  · rfl
  · rcases h with h | h | h
    · exact absurd h h1
    · exact absurd h h2
    · exact absurd h h3

theorem filter_id_eq_erase (item : GameItem) :
    ∀ l : List GameItem, item ∈ l → (l.map fun i => i.id).Nodup →
      (l.filter fun i => i.id != item.id) = l.erase item := by
  intro l
  induction l with
  | nil => intro h _; exact absurd h (List.not_mem_nil item)
  | cons x xs ih =>
    intro hmem hnodup
    rw [List.map_cons, List.nodup_cons] at hnodup
    obtain ⟨hxid, hxs⟩ := hnodup
    by_cases hx : x = item
    · subst hx
      rw [List.erase_cons_head, List.filter_cons_of_neg (by simp)]
      apply List.filter_eq_self.mpr
      intro a ha
      simp only [bne_iff_ne, ne_eq, decide_eq_true_eq]
      intro haid
      exact hxid (haid ▸ List.mem_map_of_mem (fun i => i.id) ha)
    · have hmem' : item ∈ xs := by
        rcases List.mem_cons.mp hmem with h | h
        · exact absurd h.symm hx
        · exact h
      rw [List.erase_cons_tail (by simpa using hx),
        List.filter_cons_of_pos ?_, ih hmem' hxs]
      simp only [bne_iff_ne, ne_eq, decide_eq_true_eq]
      intro hxi
      exact hxid (hxi ▸ List.mem_map_of_mem (fun i => i.id) hmem')

/-- Claim C10: an accepted click (no match resolving, tray below capacity,
item unblocked) removes exactly the clicked item from the shelf list when
ids are unique, appends the clicked item at the end of the tray leaving
all prior tray elements unchanged in order, and leaves the remaining time
unchanged. -/
theorem c10_click_frame (s : Session) (clickedItem : GameItem)
    (h1 : s.isProcessingMatch = false)
    (h2 : s.tray.length < MAX_TRAY_SIZE)
    (h3 : isBlocked clickedItem s.items = false)
    (h4 : clickedItem ∈ s.items)
    (h5 : (s.items.map fun i => i.id).Nodup) :
    (handleItemClick s clickedItem).items = s.items.erase clickedItem ∧
    (handleItemClick s clickedItem).tray = s.tray ++ [clickedItem] ∧
    (handleItemClick s clickedItem).timeLeft = s.timeLeft := by
  unfold handleItemClick
  rw [if_neg (by simp [h1]), if_neg (by omega), if_neg (by simp [h3])]
  exact ⟨filter_id_eq_erase clickedItem s.items h4 h5, rfl, rfl⟩

/-- Claim C5 counterexample: the code has no budget-exhaustion guard in
`handleItemClick` — with remaining time 0, a full-capacity-free tray, an
unblocked item and no match resolving, the click still mutates the state,
contradicting the claim that an exhausted budget makes clicks no-ops. -/
theorem c5_counterexample :
    c5State.timeLeft ≤ 0 ∧ handleItemClick c5State c5Item ≠ c5State := by
  decide

/-- Claim C5 (amended): `handleItemClick` is a no-op whenever a match is
resolving, the tray is at capacity, or the item is blocked; the code
checks no budget condition. -/
theorem c5_click_rejection (s : Session) (clickedItem : GameItem)
    (h : s.isProcessingMatch = true ∨ MAX_TRAY_SIZE ≤ s.tray.length ∨
      isBlocked clickedItem s.items = true) :
    handleItemClick s clickedItem = s :=
  handleItemClick_noop s clickedItem h

/-- Claim C6 counterexample: with a full tray of 7 mutually distinct
types, positive remaining time and a non-empty shelf, the match-check
effect fires `onGameOver(false, 0)` anyway — a full tray with no current
three-of-a-kind is a loss by itself in the code. -/
theorem c6_counterexample :
    matchEffectFiresLoss c6State = true ∧ 0 < c6State.timeLeft ∧
      c6State.items ≠ [] := by
  decide

/-- Claim C6 (amended): with the tray at capacity every further click is a
no-op (the tray stays at 7 items), and if additionally no tray type counts
3 the match-check effect immediately fires the loss callback, regardless
of remaining budget or shelf contents. -/
theorem c6_full_tray (s : Session) (h : MAX_TRAY_SIZE ≤ s.tray.length) :
    (∀ clickedItem, handleItemClick s clickedItem = s) ∧
    (foundMatchedType s.tray = none → matchEffectFiresLoss s = true) := by
  constructor
  · intro clickedItem
    exact handleItemClick_noop s clickedItem (Or.inr (Or.inl h))
  · intro hnone
    have hne : s.tray ≠ [] := by
      intro hnil
      rw [hnil] at h
      simp [MAX_TRAY_SIZE] at h
    unfold matchEffectFiresLoss
    rw [hnone]
    simp [hne, h]

/-- Claim C1 counterexample: in the pre-initialization grace state (shelf
and tray both empty, `isInitialized` still false) the win-condition effect
does not fire, so the win callback does not fire iff shelf and tray are
empty over all session states. -/
theorem c1_counterexample :
    ¬ (winFires c1State = true ↔ c1State.items = [] ∧ c1State.tray = []) := by
  decide

/-- Claim C1 (amended): once the session is initialized the win callback
fires iff the shelf item list and the tray are simultaneously empty; on a
win the reported stars are 3 when remaining time is at least
`threeStarThreshold`, 2 when at least `twoStarThreshold`, and 1 otherwise,
and the star value is monotonically non-decreasing in remaining time. -/
theorem c1_win_iff_and_stars (s : Session) (cfg : LevelConfig)
    (hinit : s.isInitialized = true) :
    (winFires s = true ↔ s.items = [] ∧ s.tray = []) ∧
    (cfg.threeStarThreshold ≤ s.timeLeft → starsForWin cfg s.timeLeft = 3) ∧
    (¬ cfg.threeStarThreshold ≤ s.timeLeft → cfg.twoStarThreshold ≤ s.timeLeft →
      starsForWin cfg s.timeLeft = 2) ∧
    (¬ cfg.threeStarThreshold ≤ s.timeLeft → ¬ cfg.twoStarThreshold ≤ s.timeLeft →
      starsForWin cfg s.timeLeft = 1) ∧
    (∀ u v : Int, u ≤ v → starsForWin cfg u ≤ starsForWin cfg v) := by
  refine ⟨?_, ?_, ?_, ?_, ?_⟩
  · simp [winFires, hinit, List.length_eq_zero]
  · intro h3; simp [starsForWin, h3]
  · intro h3 h2; simp [starsForWin, h3, h2]
  · intro h3 h2; simp [starsForWin, h3, h2]
  · intro u v huv
    simp only [starsForWin]
    split_ifs <;> omega

/-- Claim C7 (code bug): on a configuration whose grid capacity (2) is
smaller than `totalSets * 3` (3), `generateLevel` does not clamp
`totalSets` — it truncates the shuffled pool to the available positions,
placing 2 items: a count that is not a multiple of 3, leaving a partial
triplet on the shelf. -/
theorem c7_truncated_partial_triplet :
    c7Config.shelfCount * c7Config.slotsPerShelf * c7Config.layersPerSlot <
      c7Config.totalSets * 3 ∧
    (generateLevel (typePool [ItemType.APPLE]) (allPositions c7Config)).length = 2 ∧
    ¬ (3 ∣ (generateLevel (typePool [ItemType.APPLE]) (allPositions c7Config)).length) := by
  decide

/-! ### Witnesses -/

/-- C1 witness: the amended claim instantiated at a concrete initialized
session and configuration. -/
theorem c1_witness :
    c1InitState.isInitialized = true ∧
    ((winFires c1InitState = true ↔
        c1InitState.items = [] ∧ c1InitState.tray = []) ∧
      (cfgW.threeStarThreshold ≤ c1InitState.timeLeft →
        starsForWin cfgW c1InitState.timeLeft = 3) ∧
      (¬ cfgW.threeStarThreshold ≤ c1InitState.timeLeft →
        cfgW.twoStarThreshold ≤ c1InitState.timeLeft →
        starsForWin cfgW c1InitState.timeLeft = 2) ∧
      (¬ cfgW.threeStarThreshold ≤ c1InitState.timeLeft →
        ¬ cfgW.twoStarThreshold ≤ c1InitState.timeLeft →
        starsForWin cfgW c1InitState.timeLeft = 1) ∧
      (∀ u v : Int, u ≤ v → starsForWin cfgW u ≤ starsForWin cfgW v)) :=
  ⟨rfl, c1_win_iff_and_stars c1InitState cfgW rfl⟩

/-- C2 witness: the generator claim instantiated with the identity
shuffles on a 1x1x3 grid holding one apple triplet. -/
theorem c2_witness :
    ([ItemType.APPLE].length = cfgW.totalSets ∧
      (∀ t ∈ [ItemType.APPLE], t ∈ cfgW.itemTypes) ∧
      (typePool [ItemType.APPLE]).Perm (typePool [ItemType.APPLE]) ∧
      (allPositions cfgW).Perm (allPositions cfgW) ∧
      cfgW.totalSets * 3 ≤
        cfgW.shelfCount * cfgW.slotsPerShelf * cfgW.layersPerSlot) ∧
    ((generateLevel (typePool [ItemType.APPLE]) (allPositions cfgW)).length =
        cfgW.totalSets * 3 ∧
      ∃ groups : List ItemType, groups.length = cfgW.totalSets ∧
        (∀ t ∈ groups, t ∈ cfgW.itemTypes) ∧
        ((generateLevel (typePool [ItemType.APPLE])
            (allPositions cfgW)).map fun i => i.type).Perm
          (groups.flatMap fun t => [t, t, t])) :=
  ⟨⟨by decide, by decide, List.Perm.refl _, List.Perm.refl _, by decide⟩,
    c2_generator_sets cfgW [ItemType.APPLE] (typePool [ItemType.APPLE])
      (allPositions cfgW) (by decide) (by decide) (List.Perm.refl _)
      (List.Perm.refl _) (by decide)⟩

/-- C3 witness: in a two-item stack, the front item (maximal layer of its
slot) is not blocked, by the maximal-layer part of the claim theorem. -/
theorem c3_witness :
    isBlocked (mkItem 1 ItemType.BANANA 1 0) c3Stack = false :=
  (c3_isBlocked_characterization (mkItem 1 ItemType.BANANA 1 0) c3Stack).2.1
    (by decide)

/-- C4 witness: the match-resolution claim instantiated on a tray with
three apples and one banana. -/
theorem c4_witness :
    (∃ u, 3 ≤ typeCount c4Tray u) ∧
    (∃ t, foundMatchedType c4Tray = some t ∧ 3 ≤ typeCount c4Tray t ∧
      (∃ pre post, c4Tray = pre ++ post ∧
        pre.countP (fun i => i.type == t) = 3 ∧
        resolveMatch t c4Tray = pre.filter (fun i => !(i.type == t)) ++ post) ∧
      typeCount (resolveMatch t c4Tray) t = typeCount c4Tray t - 3 ∧
      (resolveMatch t c4Tray).Sublist c4Tray) :=
  ⟨⟨ItemType.APPLE, by decide⟩,
    c4_match_resolution c4Tray ⟨ItemType.APPLE, by decide⟩⟩

/-- C5 witness: the amended claim instantiated at a session whose match
resolution is in progress. -/
theorem c5_witness :
    (c5BusyState.isProcessingMatch = true ∨
      MAX_TRAY_SIZE ≤ c5BusyState.tray.length ∨
      isBlocked c5Item c5BusyState.items = true) ∧
    handleItemClick c5BusyState c5Item = c5BusyState :=
  ⟨Or.inl rfl, c5_click_rejection c5BusyState c5Item (Or.inl rfl)⟩

/-- C6 witness: the amended claim instantiated at the concrete
full-tray session. -/
theorem c6_witness :
    MAX_TRAY_SIZE ≤ c6State.tray.length ∧
    ((∀ clickedItem, handleItemClick c6State clickedItem = c6State) ∧
      (foundMatchedType c6State.tray = none →
        matchEffectFiresLoss c6State = true)) :=
  ⟨by decide, c6_full_tray c6State (by decide)⟩

/-- C8 witness: the position-invariant claim instantiated with the
identity shuffle of the 1x1x3 grid. -/
theorem c8_witness :
    (allPositions cfgW).Perm (allPositions cfgW) ∧
    (((generateLevel (typePool [ItemType.APPLE])
        (allPositions cfgW)).map
          fun i => (i.shelfIndex, i.slotIndex, i.layer)).Nodup ∧
      (∀ (s : Session) (clickedItem : GameItem),
        ((handleItemClick s clickedItem).items).Sublist s.items) ∧
      (∀ (s : Session) (clickedItem : GameItem),
        (s.items.map fun i => (i.shelfIndex, i.slotIndex, i.layer)).Nodup →
        ((handleItemClick s clickedItem).items.map
          fun i => (i.shelfIndex, i.slotIndex, i.layer)).Nodup)) :=
  ⟨List.Perm.refl _,
    c8_position_invariant cfgW (typePool [ItemType.APPLE]) (allPositions cfgW)
      (List.Perm.refl _)⟩

/-- C10 witness: the frame claim instantiated at a concrete accepted
click. -/
theorem c10_witness :
    (c10State.isProcessingMatch = false ∧
      c10State.tray.length < MAX_TRAY_SIZE ∧
      isBlocked c5Item c10State.items = false ∧
      c5Item ∈ c10State.items ∧
      (c10State.items.map fun i => i.id).Nodup) ∧
    ((handleItemClick c10State c5Item).items = c10State.items.erase c5Item ∧
      (handleItemClick c10State c5Item).tray = c10State.tray ++ [c5Item] ∧
      (handleItemClick c10State c5Item).timeLeft = c10State.timeLeft) :=
  ⟨⟨by decide, by decide, by decide, by decide, by decide⟩,
    c10_click_frame c10State c5Item (by decide) (by decide) (by decide)
      (by decide) (by decide)⟩

end PolkiProd
